import Mathlib

/-!
Verification of the announcement deduplication-and-fanout engine of the
`bse_but_ai` repository against its natural-language specification.

The Python services are shallowly embedded as Lean functions:

* `src/services/db_service.py` — seen-record store queries and inserts,
  with explicit store states for "no client" and "query raises".
* `src/services/bse_service.py` — per-scrip announcement processing:
  dedup filter, date cutoff, caption build, fanout dispatch.
* `src/services/telegram_service.py` — caption-overflow document send.
* `src/services/security.py` — signed deep-link tokens.
* `src/services/ai_service.py` — merge of live quote data into the AI
  summary fields.

External collaborators (HTTP, Telegram, Supabase, Gemini, strptime,
base64/json/hmac) are passed in as explicit function parameters; the
control flow around them is translated statement by statement from the
Python source.  Machine-level details (timestamps) are modelled as
integers counting microseconds, matching `datetime` comparison semantics.
-/

namespace BseButAi

/-! ### Python value helpers -/

/-- Truthiness of an optional string, as Python evaluates
`if not user_id:` on a value read with `dict.get`: `None` and the empty
string are falsy. -/
def pyTruthy : Option String → Bool
  | none => false
  | some s => s ≠ ""

/-- The string value of a truthy optional (Python just uses the value). -/
def pyStrVal (a : Option String) : String := a.getD ""

/-- Python `a or b` on two optional strings: the first operand if it is
truthy, otherwise the second operand (even if falsy). -/
def pyOr (a b : Option String) : Option String := if pyTruthy a then a else b

/-- Python slicing `s[:n]` on a string (first `n` code points). -/
def pyTake (n : Nat) (s : String) : String := ⟨s.data.take n⟩

/-- Truthiness of an optional byte string (`if pdf_bytes:`): `None` and
empty bytes are falsy. -/
def pyBytesTruthy : Option (List Nat) → Bool
  | none => false
  | some b => !b.isEmpty

/-! ### Data model: seen records and recipients

`seen_announcements(user_id, news_id, scrip_code, headline, pdf_name,
ann_date, caption)` rows, as inserted by `db_save_announcement_for_user`.
The announcement date is carried as the normalized timestamp. -/

structure SeenRecord where
  user_id : String
  news_id : String
  scrip_code : String
  headline : String
  pdf_name : String
  ann_date : Int
  caption : String
deriving DecidableEq, Repr

/-- A Telegram recipient row `(user_id, chat_id)`; `user_id` is read with
`recipient.get('user_id')` and may be absent. -/
structure Recipient where
  user_id : Option String
  chat_id : String
deriving DecidableEq, Repr

/-- The persistent store as seen through `get_supabase_client()`:
either no client can be obtained (`unavailable`), or queries raise
(`failing`), or the table contents are available. -/
inductive StoreState where
  | unavailable
  | failing
  | available (recs : List SeenRecord)
deriving DecidableEq, Repr

/-- `db_check_if_announcement_seen_by_user(news_id, user_id)`
(`db_service.py:479`): `False` when no client, `False` when the query
raises, otherwise whether a row matches both equality filters. -/
def db_check_if_announcement_seen_by_user (st : StoreState) (news_id user_id : String) : Bool :=
  match st with
  | .unavailable => false
  | .failing => false
  | .available recs => recs.any fun r => r.news_id == news_id && r.user_id == user_id

/-- `db_check_if_pdf_seen_by_user(pdf_name, user_id)`
(`db_service.py:491`): same shape, filtering on `pdf_name`. -/
def db_check_if_pdf_seen_by_user (st : StoreState) (pdf_name user_id : String) : Bool :=
  match st with
  | .unavailable => false
  | .failing => false
  | .available recs => recs.any fun r => r.pdf_name == pdf_name && r.user_id == user_id

/-- One iteration of the recipient loop in
`process_announcements_for_scrip` (`bse_service.py:50-59`): skip when
`user_id` is falsy, skip when the news id was seen by this user, skip
when the PDF name is truthy and was seen by this user, otherwise keep. -/
def recipientNeeds (st : StoreState) (news_id pdf_name : String) (r : Recipient) : Bool :=
  if !pyTruthy r.user_id then false
  else
    let uid := pyStrVal r.user_id
    if db_check_if_announcement_seen_by_user st news_id uid then false
    else if pdf_name ≠ "" && db_check_if_pdf_seen_by_user st pdf_name uid then false
    else true

/-- `users_who_need_notification` (`bse_service.py:49-59`): the
recipients kept by the loop, in the supplied order. -/
def usersWhoNeedNotification (st : StoreState) (news_id pdf_name : String)
    (recipients : List Recipient) : List Recipient :=
  recipients.filter (recipientNeeds st news_id pdf_name)

/-! ### Fanout dispatch (`bse_service.py:138-166`) -/

/-- Observable calls issued by the dispatch loop: a
`db_save_announcement_for_user` call with its full argument row, or a
`send_document_handling_overflow` call with chat id and caption. -/
inductive Event where
  | save (rec : SeenRecord)
  | send (chat_id : String) (caption : String)
deriving DecidableEq, Repr

/-- Prefix of the per-user caption built at `bse_service.py:159`. -/
def fullDetailsPre : String := "🔗 <b>Full details:</b> <a href=\""

/-- Middle of the per-user caption built at `bse_service.py:159`. -/
def fullDetailsPost : String := "\">Open securely</a>\n\n"

/-- `per_user_caption` (`bse_service.py:156-163`): the deep link is put
at the top when a link exists, otherwise the caption is unchanged. -/
def perUserCaption (final_caption : String) (link : Option String) : String :=
  match link with
  | some l => fullDetailsPre ++ l ++ fullDetailsPost ++ final_caption
  | none => final_caption

/-- The deep link of `bse_service.py:153-155`:
`f"{base}/v/{token}" if base else None`, with `sign_token` supplied as
the opaque `tokenFor`. -/
def linkFor (base : String) (tokenFor : Option String → String) (r : Recipient) : Option String :=
  if base ≠ "" then some (base ++ "/v/" ++ tokenFor r.user_id) else none

/-- The per-recipient fanout loop of `bse_service.py:138-166`.  For each
recipient: issue the seen-record write when `user_id` is truthy, then
attempt the channel send.  `send` abstracts
`send_document_handling_overflow`; a `.error` models a raised Python
exception, which aborts the remaining recipients (it propagates to the
`except` at `bse_service.py:168`).  Returns the trace of issued calls
and the propagated exception, if any. -/
def dispatchLoop (scrip headline pdf_name : String) (ann_date : Int)
    (news_id final_caption : String) (ucap : Recipient → String)
    (send : Recipient → String → Except String Bool) :
    List Recipient → List Event × Option String
  | [] => ([], none)
  | r :: rs =>
    let pre : List Event :=
      if pyTruthy r.user_id then
        [.save ⟨pyStrVal r.user_id, news_id, scrip, headline, pdf_name, ann_date, final_caption⟩]
      else []
    let cap := ucap r
    match send r cap with
    | .error e => (pre ++ [.send r.chat_id cap], some e)
    | .ok _ =>
      let rest := dispatchLoop scrip headline pdf_name ann_date news_id final_caption ucap send rs
      (pre ++ .send r.chat_id cap :: rest.1, rest.2)

/-- `db_save_announcement_for_user` as a store transformer: an insert
when the client exists, a no-op when there is no client or the insert
raises (`db_service.py:515-537`). -/
def applySaveEvent (st : StoreState) : Event → StoreState
  | .save rec =>
    match st with
    | .available recs => .available (recs ++ [rec])
    | s => s
  | .send _ _ => st

/-- Fold the writes of a dispatch trace into the store. -/
def storeAfterEvents (st : StoreState) (evs : List Event) : StoreState :=
  evs.foldl applySaveEvent st

/-! ### Caption build (`bse_service.py:80-135`) -/

/-- `{headline[:100]}{"..." if len(headline) > 100 else ""}` as used in
both fallback templates. -/
def truncHeadline (headline : String) : String :=
  pyTake 100 headline ++ (if 100 < headline.length then "..." else "")

/-- Shared head of the fallback templates up to the scrip code. -/
def fbHead : String := "📊 <b>Company Announcement</b>\n\n🏷️ <b>Scrip:</b> "

/-- Shared segment between scrip code and headline. -/
def fbMid1 : String := "\n💰 <b>Price:</b> N/A\n📢 <b>Title:</b> "

/-- Shared segment between headline and date. -/
def fbMid2 : String := "\n📅 <b>Date:</b> "

/-- Tail of the AI-analysis-failed template (`bse_service.py:102-117`). -/
def fbTailA : String :=
  "\n\n💹 <b>Financials:</b> AI analysis unavailable\n\n🎯 <b>INVEST?</b> Consult financial advisor\n📈 <b>Sentiment:</b> Unknown\n👥 <b>Public:</b> To be determined\n🧠 <b>General View:</b> Analysis failed\n🎭 <b>Motive:</b> Review announcement details\n\n📝 <b>TL;DR:</b> New announcement - manual review needed"

/-- Tail of the PDF-unavailable template (`bse_service.py:120-135`). -/
def fbTailB : String :=
  "\n\n💹 <b>Financials:</b> PDF download failed\n\n🎯 <b>INVEST?</b> Consult financial advisor\n📈 <b>Sentiment:</b> Unknown\n👥 <b>Public:</b> To be determined\n🧠 <b>General View:</b> Document unavailable\n🎭 <b>Motive:</b> Check BSE website\n\n📝 <b>TL;DR:</b> New announcement - PDF unavailable"

/-- The fallback caption used when AI analysis fails
(`bse_service.py:102-117`). -/
def fallbackCaptionA (scrip headline dateStr : String) : String :=
  fbHead ++ scrip ++ fbMid1 ++ truncHeadline headline ++ fbMid2 ++ dateStr ++ fbTailA

/-- The fallback caption used when the PDF download failed or the memory
gate denies AI (`bse_service.py:120-135`). -/
def fallbackCaptionB (scrip headline dateStr : String) : String :=
  fbHead ++ scrip ++ fbMid1 ++ truncHeadline headline ++ fbMid2 ++ dateStr ++ fbTailB

/-- `final_caption` selection (`bse_service.py:94-135`): when the PDF
bytes are truthy and `is_memory_ok(soft=True)` holds, run the AI
analysis (`analyze` already catches its own exceptions and yields `none`
on failure, like `analyze_pdf_bytes_with_gemini`); a truthy analysis is
rendered by `format_structured_telegram_message` (`fmt`), otherwise
fallback A; without PDF or memory headroom, fallback B. -/
def buildFinalCaption {A : Type} (analyze : List Nat → Option A) (fmt : A → String)
    (memOk : Bool) (pdfBytes : Option (List Nat)) (scrip headline dateStr : String) : String :=
  if pyBytesTruthy pdfBytes && memOk then
    match analyze (pdfBytes.getD []) with
    | some a => fmt a
    | none => fallbackCaptionA scrip headline dateStr
  else fallbackCaptionB scrip headline dateStr

/-! ### Per-announcement and per-scrip processing (`bse_service.py:15-169`) -/

/-- One raw record of the fetched `Table`, with the fields the loop
reads via `announcement.get(...)`. -/
structure Announcement where
  newsid : Option String
  attachmentname : Option String
  news_dt : Option String
  dissem_dt : Option String
  newssub : Option String
  headline : Option String
deriving DecidableEq, Repr

/-- External collaborators of `process_announcements_for_scrip`, passed
explicitly: the three-format `strptime` chain as `parseDate` (normalized
IST timestamp in microseconds), `strftime` as `formatDate`, the PDF
download, the AI summarizer with its renderer, the memory gate, the
Telegram send, and the deep-link pieces. -/
structure Env (A : Type) where
  parseDate : String → Option Int
  formatDate : Int → String
  download : String → Option (List Nat)
  analyze : List Nat → Option A
  fmt : A → String
  memOk : Bool
  send : Recipient → String → Except String Bool
  base : String
  tokenFor : Option String → String

/-- Outcome of one iteration of the announcement loop. -/
inductive AnnOutcome where
  | skippedNoIdOrPdf
  | skippedNoDate
  | skippedAllSeen
  | skippedUnparsable
  | skippedBeforeCutoff
  | dispatched (final_caption : String) (events : List Event) (err : Option String)
deriving DecidableEq, Repr

/-- `headline = announcement.get('NEWSSUB') or announcement.get('HEADLINE', 'N/A')`
(`bse_service.py:80`). -/
def annHeadline (ann : Announcement) : String :=
  if pyTruthy ann.newssub then pyStrVal ann.newssub else ann.headline.getD "N/A"

/-- The `final_caption` computed for one announcement
(`bse_service.py:84-135`): PDF download, memory gate, AI analysis,
structured format or fallback templates. -/
def annFinalCaption {A : Type} (env : Env A) (scrip : String) (ann : Announcement)
    (t : Int) : String :=
  buildFinalCaption env.analyze env.fmt env.memOk
    (env.download (pyStrVal ann.attachmentname)) scrip (annHeadline ann) (env.formatDate t)

/-- The fanout of one announcement over its to-notify set
(`bse_service.py:138-166`). -/
def annDispatch {A : Type} (env : Env A) (st : StoreState) (scrip : String)
    (recipients : List Recipient) (ann : Announcement) (t : Int) :
    List Event × Option String :=
  dispatchLoop scrip (annHeadline ann) (pyStrVal ann.attachmentname) t
    (pyStrVal ann.newsid) (annFinalCaption env scrip ann t)
    (fun r => perUserCaption (annFinalCaption env scrip ann t) (linkFor env.base env.tokenFor r))
    env.send
    (usersWhoNeedNotification st (pyStrVal ann.newsid) (pyStrVal ann.attachmentname) recipients)

/-- The body of the `for announcement in data['Table']` loop
(`bse_service.py:38-166`), one announcement at a time:
missing-id/attachment guard, missing-date guard, per-user dedup filter,
empty-filter skip, date parse, cutoff comparison, headline selection,
caption build, fanout dispatch. -/
def processAnnouncement {A : Type} (env : Env A) (st : StoreState) (cutoff : Int)
    (scrip : String) (recipients : List Recipient) (ann : Announcement) : AnnOutcome :=
  if !(pyTruthy ann.newsid && pyTruthy ann.attachmentname) then .skippedNoIdOrPdf
  else if !pyTruthy (pyOr ann.news_dt ann.dissem_dt) then .skippedNoDate
  else if (usersWhoNeedNotification st (pyStrVal ann.newsid) (pyStrVal ann.attachmentname)
      recipients).isEmpty then .skippedAllSeen
  else
    match env.parseDate (pyStrVal (pyOr ann.news_dt ann.dissem_dt)) with
    | none => .skippedUnparsable
    | some t =>
      if t < cutoff then .skippedBeforeCutoff
      else
        .dispatched (annFinalCaption env scrip ann t)
          (annDispatch env st scrip recipients ann t).1
          (annDispatch env st scrip recipients ann t).2

/-- The announcement loop: outcomes in order, threading the seen-record
writes into the store; a propagated exception (a `.dispatched` with an
error) aborts the remaining announcements, since it is only caught by
the `except` wrapping the whole scrip (`bse_service.py:168`). -/
def processAnnList {A : Type} (env : Env A) (st : StoreState) (cutoff : Int)
    (scrip : String) (recipients : List Recipient) : List Announcement → List AnnOutcome
  | [] => []
  | a :: rest =>
    let o := processAnnouncement env st cutoff scrip recipients a
    match o with
    | .dispatched cap evs (some e) => [.dispatched cap evs (some e)]
    | .dispatched cap evs none =>
      .dispatched cap evs none ::
        processAnnList env (storeAfterEvents st evs) cutoff scrip recipients rest
    | o => o :: processAnnList env st cutoff scrip recipients rest

/-- `process_announcements_for_scrip` after the fetch: a fetch/parse
failure is caught by the outer `except` (`bse_service.py:168-169`) and
yields no outcomes; otherwise the announcement loop runs. -/
def processScrip {A : Type} (env : Env A) (st : StoreState) (cutoff : Int)
    (scrip : String) (recipients : List Recipient)
    (fetched : Except String (List Announcement)) : List AnnOutcome :=
  match fetched with
  | .error _ => []
  | .ok anns => processAnnList env st cutoff scrip recipients anns

/-- One sweep over all monitored scrips: the caller loop invokes
`process_announcements_for_scrip` for every scrip; each call handles its
own failures, so every scrip is processed. -/
def sweepScrips {A : Type} (env : Env A) (st : StoreState) (cutoff : Int)
    (jobs : List (String × List Recipient × Except String (List Announcement))) :
    List (List AnnOutcome) :=
  jobs.map fun j => processScrip env st cutoff j.1 j.2.1 j.2.2

/-! ### Telegram overflow handling (`telegram_service.py:77-95`) -/

/-- Head of `link_line` (`telegram_service.py:86`).  The source file
literally contains the four mojibake characters U+00F0 U+0178 U+201D
U+2014 (a UTF-8 link emoji mis-decoded as Latin-1), reproduced here. -/
def tgLinkPre : String := "\n\nðŸ”— <b>read_full_message:</b> <a href=\""

/-- Tail of `link_line` (`telegram_service.py:86`). -/
def tgLinkPost : String := "\">open</a>"

/-- The first chunk sent with the document by
`send_document_handling_overflow` when the caption exceeds the limit
(`telegram_service.py:84-89`): with a view URL the caption is cut to
`max(0, limit - len(link_line))` and the link line appended; without one
it is simply cut to the limit. -/
def firstChunk (limit : Nat) (caption : String) (view_url : Option String) : String :=
  match view_url with
  | some url =>
    let link_line := tgLinkPre ++ url ++ tgLinkPost
    let headroom := limit - link_line.length
    pyTake headroom caption ++ link_line
  | none => pyTake limit caption

/-- `send_document_handling_overflow` (`telegram_service.py:77-95`).
`sendDoc` abstracts `send_telegram_document` (which catches its own
exceptions and returns a Bool); `sendText` abstracts
`send_telegram_text`.  Captions within the limit are sent in one
document message.  Longer captions send the first chunk; if that send
returns falsy the function returns `False`, otherwise execution reaches
`for extra in chunks[1:]` — but no variable `chunks` was ever assigned
(`_split_text` is never called), so Python raises `NameError`, modelled
as `.error`. -/
def send_document_handling_overflow
    (sendDoc : String → String → String → Option (List Nat) → Option String → Bool)
    (limit : Nat) (chat_id pdf_name caption : String)
    (pdf_bytes : Option (List Nat)) (view_url : Option String) : Except String Bool :=
  if caption.length ≤ limit then
    .ok (sendDoc chat_id pdf_name caption pdf_bytes view_url)
  else
    let first := firstChunk limit caption view_url
    let sent := sendDoc chat_id pdf_name first pdf_bytes view_url
    if !sent then .ok false
    else .error "NameError: name chunks is not defined"

/-! ### Deep-link tokens (`security.py:22-44`)

`json.dumps`/`_b64url` are bundled as the opaque encoder `enc`,
`_b64url_decode`/`json.loads` as the partial decoder `dec`, and
`_b64url(hmac.new(secret, ..., sha256).digest())` as the opaque `mac`.
The token body is the payload dict plus the `exp` entry; `exp` is kept
as a separate optional field so that `body.get('exp', 0)` is explicit. -/

structure TokenBody where
  fields : List (String × String)
  exp : Option Nat
deriving DecidableEq, Repr

/-- Python `token.split('.', 1)` on a character list: split at the first
dot, or fail (so that `encoded, sig = ...` raises) when there is none. -/
def splitFirstDotAux : List Char → Option (List Char × List Char)
  | [] => none
  | c :: cs =>
    if c = '.' then some ([], cs)
    else
      match splitFirstDotAux cs with
      | none => none
      | some (a, b) => some (c :: a, b)

/-- `token.split('.', 1)` on strings. -/
def splitFirstDot (s : String) : Option (String × String) :=
  (splitFirstDotAux s.data).map fun p => (⟨p.1⟩, ⟨p.2⟩)

/-- `sign_token(payload, expires_in_seconds)` (`security.py:22-29`):
the body is the payload with `exp = now + expires_in_seconds`; the token
is the encoded body, a dot, and the MAC of the encoded body. -/
def sign_token (enc : TokenBody → String) (mac : String → String)
    (payload : List (String × String)) (expires_in_seconds now : Nat) : String :=
  let body : TokenBody := ⟨payload, some (now + expires_in_seconds)⟩
  enc body ++ "." ++ mac (enc body)

/-- The body of `verify_token`'s `try` block (`security.py:33-42`):
split at the first dot (raising without one), recompute and compare the
MAC (returning `None` on mismatch), decode the body (raising when base64
or JSON decoding fails), and check `int(body.get('exp', 0)) <
int(time.time())`. -/
def verify_token_checked (mac : String → String) (dec : String → Option TokenBody)
    (now : Nat) (token : String) : Except String (Option TokenBody) :=
  match splitFirstDot token with
  | none => .error "ValueError: not enough values to unpack"
  | some (encoded, sig) =>
    if mac encoded = sig then
      match dec encoded with
      | none => .error "decode failure"
      | some body => if body.exp.getD 0 < now then .ok none else .ok (some body)
    else .ok none

/-- `verify_token` (`security.py:32-44`): the `try` body with
`except Exception: return None`. -/
def verify_token (mac : String → String) (dec : String → Option TokenBody)
    (now : Nat) (token : String) : Option TokenBody :=
  match verify_token_checked mac dec now token with
  | .ok r => r
  | .error _ => none

/-- Replace the character at position `i` of a string (a single-character
alteration of the signature segment). -/
def alterChar (s : String) (i : Nat) (c : Char) : String := ⟨s.data.set i c⟩

/-! ### Quote-data merge into the AI summary (`ai_service.py:47-71`)

Field values are the strings Python would observe (`none` for an absent
key or a `None` value). -/

structure AIJson where
  current_stock_price : Option String
  price_change : Option String
  market_cap : Option String
  company_name : Option String
deriving DecidableEq, Repr

/-- Live quote data from Yahoo as read by the merge block:
`day_change_percent` carries a flag recording whether the Python value
is an `int`/`float` (which controls the `f"{pct}%"` formatting). -/
structure YahooData where
  error : Bool
  current_price : Option String
  day_change_percent : Option String
  pct_is_num : Bool
  day_change : Option String
  market_cap : Option String
  company_name : Option String
deriving DecidableEq, Repr

/-- Python `str.strip()`: drop leading and trailing whitespace. -/
def pyStrip (s : String) : String :=
  ⟨((s.data.dropWhile Char.isWhitespace).reverse.dropWhile Char.isWhitespace).reverse⟩

/-- `str(json_data.get(k) or '').strip()` as at `ai_service.py:52,58`. -/
def aiFieldStr (v : Option String) : String :=
  pyStrip (pyStrVal (pyOr v (some "")))

/-- `ai_service.py:51-56`: fill `current_stock_price` from the live
price when the stripped AI string is `''` or `'N/A'` and the live price
is neither `None` nor `'N/A'`. -/
def mergePrice (j : AIJson) (y : YahooData) : AIJson :=
  if aiFieldStr j.current_stock_price = "" || aiFieldStr j.current_stock_price = "N/A" then
    match y.current_price with
    | some lp => if lp ≠ "N/A" then { j with current_stock_price := some lp } else j
    | none => j
  else j

/-- `ai_service.py:57-65`: fill `price_change` only when the stripped
AI string is `''`, preferring `day_change_percent` (suffixed with `%`
when numeric) over `day_change`. -/
def mergeChange (j : AIJson) (y : YahooData) : AIJson :=
  if aiFieldStr j.price_change = "" then
    match y.day_change_percent with
    | some pct =>
      if pct ≠ "N/A" then
        { j with price_change := some (if y.pct_is_num then pct ++ "%" else pct) }
      else
        match y.day_change with
        | some chg => if chg ≠ "N/A" then { j with price_change := some chg } else j
        | none => j
    | none =>
      match y.day_change with
      | some chg => if chg ≠ "N/A" then { j with price_change := some chg } else j
      | none => j
  else j

/-- `ai_service.py:66-68`: fill `market_cap` only when the AI value is
falsy and the quote value truthy. -/
def mergeMcap (j : AIJson) (y : YahooData) : AIJson :=
  if !pyTruthy j.market_cap && pyTruthy y.market_cap then
    { j with market_cap := y.market_cap }
  else j

/-- `ai_service.py:69-71`: fill `company_name` only when the AI value
is falsy and the quote value truthy. -/
def mergeCname (j : AIJson) (y : YahooData) : AIJson :=
  if !pyTruthy j.company_name && pyTruthy y.company_name then
    { j with company_name := y.company_name }
  else j

/-- The enrichment block at `ai_service.py:47-71`: run only when
`yahoo_data` is truthy and has no `error`, applying the four in-place
field updates in source order. -/
def mergeYahooIntoJson (j : AIJson) (yahoo : Option YahooData) : AIJson :=
  match yahoo with
  | none => j
  | some y =>
    if y.error then j
    else mergeCname (mergeMcap (mergeChange (mergePrice j y) y) y) y

/-! ### Substring helpers (for caption-content statements) -/

/-- `needle` starts `hay` (executable). -/
def listStarts : List Char → List Char → Bool
  | [], _ => true
  | _ :: _, [] => false
  | n :: ns, h :: hs => n == h && listStarts ns hs

/-- `needle` occurs contiguously inside `hay` (executable). -/
def listHas : List Char → List Char → Bool
  | needle, [] => listStarts needle []
  | needle, h :: hs => listStarts needle (h :: hs) || listHas needle hs

/-- `hay` contains `needle` as a contiguous substring. -/
def containsStr (hay needle : String) : Prop :=
  ∃ a b : List Char, a ++ needle.data ++ b = hay.data

theorem listStarts_iff (n h : List Char) : listStarts n h = true ↔ ∃ t, n ++ t = h := by
  induction n generalizing h with
  | nil => simp [listStarts]
  | cons c cs ih =>
    cases h with
    | nil => simp [listStarts]
    | cons d ds =>
      simp only [listStarts, Bool.and_eq_true, beq_iff_eq, ih, List.cons_append,
        List.cons.injEq]
      constructor
      · rintro ⟨rfl, t, rfl⟩
        exact ⟨t, rfl, rfl⟩
      · rintro ⟨t, rfl, rfl⟩
        exact ⟨rfl, t, rfl⟩

theorem listHas_iff (n h : List Char) : listHas n h = true ↔ ∃ a b, a ++ n ++ b = h := by
  induction h with
  | nil =>
    simp only [listHas, listStarts_iff]
    constructor
    · rintro ⟨t, ht⟩
      exact ⟨[], t, ht⟩
    · rintro ⟨a, b, hab⟩
      rcases List.append_eq_nil.mp hab with ⟨h1, h2⟩
      rcases List.append_eq_nil.mp h1 with ⟨rfl, rfl⟩
      exact ⟨b, hab⟩
  | cons d ds ih =>
    simp only [listHas, Bool.or_eq_true, listStarts_iff, ih]
    constructor
    · rintro (⟨t, ht⟩ | ⟨a, b, hab⟩)
      · exact ⟨[], t, by simpa using ht⟩
      · exact ⟨d :: a, b, by simp [← hab]⟩
    · rintro ⟨a, b, hab⟩
      cases a with
      | nil =>
        left
        exact ⟨b, by simpa using hab⟩
      | cons x xs =>
        right
        refine ⟨xs, b, ?_⟩
        have := List.cons.injEq x (xs ++ n ++ b) d ds ▸ hab
        simp only [List.cons_append, List.cons.injEq] at hab
        exact hab.2

/-- Decision procedure for `containsStr`. -/
theorem containsStr_iff (hay needle : String) :
    containsStr hay needle ↔ listHas needle.data hay.data = true := by
  rw [listHas_iff]
  exact Iff.rfl

/-! ### Splitting at the first dot -/

theorem splitFirstDotAux_append (l1 l2 : List Char) (h : '.' ∉ l1) :
    splitFirstDotAux (l1 ++ '.' :: l2) = some (l1, l2) := by
  induction l1 with
  | nil => simp [splitFirstDotAux]
  | cons c cs ih =>
    have hc : ¬ c = '.' := by
      intro hc
      exact h (hc ▸ List.mem_cons_self c cs)
    have hcs : '.' ∉ cs := fun hm => h (List.mem_cons_of_mem c hm)
    simp [splitFirstDotAux, hc, ih hcs]

theorem splitFirstDot_append (s t : String) (h : '.' ∉ s.data) :
    splitFirstDot (s ++ "." ++ t) = some (s, t) := by
  have hdata : (s ++ "." ++ t).data = s.data ++ '.' :: t.data := by
    simp [String.data_append]
  simp only [splitFirstDot, hdata, splitFirstDotAux_append s.data t.data h, Option.map_some]
  rfl

/-- Altering a character inside a string changes the string. -/
theorem alterChar_ne (s : String) (i : Nat) (c : Char) (hi : i < s.data.length)
    (hc : s.data.get ⟨i, hi⟩ ≠ c) : alterChar s i c ≠ s := by
  intro he
  apply hc
  have hd : s.data.set i c = s.data := congrArg String.data he
  have h1 : (s.data.set i c)[i]? = s.data[i]? := by rw [hd]
  rw [List.getElem?_set_self hi, List.getElem?_eq_getElem hi] at h1
  simpa [List.get_eq_getElem] using h1.symm

/-! ### Shared lemmas about the dedup filter -/

theorem pyTruthy_eq_true {o : Option String} (h : pyTruthy o = true) :
    o = some (pyStrVal o) ∧ pyStrVal o ≠ "" := by
  cases o with
  | none => simp [pyTruthy] at h
  | some s =>
    simp only [pyTruthy, decide_eq_true_eq] at h
    exact ⟨rfl, h⟩

theorem recipientNeeds_truthy {st : StoreState} {news pdf : String} {r : Recipient}
    (h : recipientNeeds st news pdf r = true) : pyTruthy r.user_id = true := by
  by_contra hne
  have h0 : pyTruthy r.user_id = false := by
    cases hb : pyTruthy r.user_id
    · rfl
    · exact absurd hb hne
  simp [recipientNeeds, h0] at h

/-- Characterization of one dedup-filter decision over an available
store, for a recipient with a truthy user id. -/
theorem recipientNeeds_available_iff (recs : List SeenRecord) (news pdf : String)
    (r : Recipient) (uid : String) (huid : r.user_id = some uid) (hne : uid ≠ "")
    (hpdf : pdf ≠ "") :
    (recipientNeeds (.available recs) news pdf r = true ↔
      (¬ ∃ sr ∈ recs, sr.user_id = uid ∧ sr.news_id = news) ∧
      (¬ ∃ sr ∈ recs, sr.user_id = uid ∧ sr.pdf_name = pdf)) := by
  have htr : pyTruthy r.user_id = true := by simp [pyTruthy, huid, hne]
  have hval : pyStrVal r.user_id = uid := by simp [pyStrVal, huid]
  constructor
  · intro h
    constructor
    · rintro ⟨sr, hmem, hu, hn⟩
      have hany : recs.any (fun sr => sr.news_id == news && sr.user_id == uid) = true :=
        List.any_eq_true.mpr ⟨sr, hmem, by simp [hu, hn]⟩
      simp [recipientNeeds, htr, hval, db_check_if_announcement_seen_by_user, hany] at h
    · rintro ⟨sr, hmem, hu, hp⟩
      have hany2 : recs.any (fun sr => sr.pdf_name == pdf && sr.user_id == uid) = true :=
        List.any_eq_true.mpr ⟨sr, hmem, by simp [hu, hp]⟩
      cases h1 : recs.any (fun sr => sr.news_id == news && sr.user_id == uid) with
      | true =>
        simp [recipientNeeds, htr, hval, db_check_if_announcement_seen_by_user, h1] at h
      | false =>
        simp [recipientNeeds, htr, hval, db_check_if_announcement_seen_by_user,
          db_check_if_pdf_seen_by_user, h1, hany2, hpdf] at h
  · rintro ⟨hno1, hno2⟩
    have h1 : recs.any (fun sr => sr.news_id == news && sr.user_id == uid) = false := by
      cases hb : recs.any (fun sr => sr.news_id == news && sr.user_id == uid) with
      | false => rfl
      | true =>
        exfalso
        rcases List.any_eq_true.mp hb with ⟨sr, hmem, hpair⟩
        simp only [Bool.and_eq_true, beq_iff_eq] at hpair
        exact hno1 ⟨sr, hmem, hpair.2, hpair.1⟩
    have h2 : recs.any (fun sr => sr.pdf_name == pdf && sr.user_id == uid) = false := by
      cases hb : recs.any (fun sr => sr.pdf_name == pdf && sr.user_id == uid) with
      | false => rfl
      | true =>
        exfalso
        rcases List.any_eq_true.mp hb with ⟨sr, hmem, hpair⟩
        simp only [Bool.and_eq_true, beq_iff_eq] at hpair
        exact hno2 ⟨sr, hmem, hpair.2, hpair.1⟩
    simp [recipientNeeds, htr, hval, db_check_if_announcement_seen_by_user,
      db_check_if_pdf_seen_by_user, h1, h2]

/-- C3.  For every fetched announcement and candidate recipient list, a
recipient (with a truthy user id, over an available store, with the
non-empty attachment name guaranteed by the loop guard) is in the
to-notify set iff no seen record exists for `(user_id, news_id)` and
none for `(user_id, attachment_name)`; in particular a seen record with
the same attachment name under any other news id suppresses the
notification. -/
theorem C3_dedup_by_id_and_attachment (recs : List SeenRecord) (news pdf : String)
    (recipients : List Recipient) (r : Recipient) (uid : String)
    (hmem : r ∈ recipients) (huid : r.user_id = some uid) (hne : uid ≠ "")
    (hpdf : pdf ≠ "") :
    (r ∈ usersWhoNeedNotification (.available recs) news pdf recipients ↔
      (¬ ∃ sr ∈ recs, sr.user_id = uid ∧ sr.news_id = news) ∧
      (¬ ∃ sr ∈ recs, sr.user_id = uid ∧ sr.pdf_name = pdf)) ∧
    (∀ sr ∈ recs, sr.user_id = uid → sr.pdf_name = pdf →
      r ∉ usersWhoNeedNotification (.available recs) news pdf recipients) := by
  have hiff := recipientNeeds_available_iff recs news pdf r uid huid hne hpdf
  constructor
  · rw [usersWhoNeedNotification, List.mem_filter]
    constructor
    · intro ⟨_, hp⟩
      exact hiff.mp hp
    · intro hno
      exact ⟨hmem, hiff.mpr hno⟩
  · intro sr hsr hu hp hin
    rw [usersWhoNeedNotification, List.mem_filter] at hin
    exact ((hiff.mp hin.2).2) ⟨sr, hsr, hu, hp⟩

/-- Closed witness for `C3_dedup_by_id_and_attachment`: a user whose
only seen record carries the same attachment name under a different
news id is excluded from the to-notify set. -/
theorem C3_witness :
    (⟨some "u1", "c1"⟩ : Recipient) ∉
      usersWhoNeedNotification
        (.available [⟨"u1", "A", "500325", "old", "X.pdf", 0, "cap"⟩])
        "B" "X.pdf" [⟨some "u1", "c1"⟩] :=
  (C3_dedup_by_id_and_attachment
      [⟨"u1", "A", "500325", "old", "X.pdf", 0, "cap"⟩] "B" "X.pdf"
      [⟨some "u1", "c1"⟩] ⟨some "u1", "c1"⟩ "u1"
      (by decide) (by decide) (by decide) (by decide)).2
    ⟨"u1", "A", "500325", "old", "X.pdf", 0, "cap"⟩ (by decide) (by decide) (by decide)

/-- Helper for C5: an `any` over records of a fixed user depends only on
the records of that user. -/
theorem any_restrict_user (recs recs' : List SeenRecord) (uid : String)
    (p : SeenRecord → Bool)
    (hproj : recs.filter (fun sr => sr.user_id == uid) =
      recs'.filter (fun sr => sr.user_id == uid)) :
    (recs.any fun sr => p sr && sr.user_id == uid) =
      (recs'.any fun sr => p sr && sr.user_id == uid) := by
  have h1 : ∀ l : List SeenRecord,
      (l.any fun sr => p sr && sr.user_id == uid) =
        ((l.filter fun sr => sr.user_id == uid).any p) := by
    intro l
    rw [List.any_filter]
    induction l with
    | nil => rfl
    | cons x xs ih => simp [List.any_cons, ih, Bool.and_comm]
  rw [h1, h1, hproj]

/-- C5.  Per-tenant isolation: the inclusion decision for a recipient
depends only on the seen records of that recipient's user; two stores
agreeing on that user's records produce the same decision, so a record
of user A never suppresses (or triggers) a decision for user B. -/
theorem C5_per_tenant_isolation (recs recs' : List SeenRecord) (news pdf : String)
    (r : Recipient) (uid : String) (huid : r.user_id = some uid)
    (hproj : recs.filter (fun sr => sr.user_id == uid) =
      recs'.filter (fun sr => sr.user_id == uid)) :
    recipientNeeds (.available recs) news pdf r =
      recipientNeeds (.available recs') news pdf r := by
  have hval : pyStrVal r.user_id = uid := by simp [pyStrVal, huid]
  have hc1 : db_check_if_announcement_seen_by_user (.available recs) news uid =
      db_check_if_announcement_seen_by_user (.available recs') news uid :=
    any_restrict_user recs recs' uid (fun sr => sr.news_id == news) hproj
  have hc2 : db_check_if_pdf_seen_by_user (.available recs) pdf uid =
      db_check_if_pdf_seen_by_user (.available recs') pdf uid :=
    any_restrict_user recs recs' uid (fun sr => sr.pdf_name == pdf) hproj
  simp only [recipientNeeds, hval, hc1, hc2]

/-- Closed witness for `C5_per_tenant_isolation`: adding another user's
seen record for the same announcement does not change user B's
decision. -/
theorem C5_witness :
    recipientNeeds (.available [⟨"uA", "n1", "500325", "h", "X.pdf", 0, "cap"⟩])
        "n1" "X.pdf" ⟨some "uB", "c2"⟩ =
      recipientNeeds (.available []) "n1" "X.pdf" ⟨some "uB", "c2"⟩ :=
  C5_per_tenant_isolation [⟨"uA", "n1", "500325", "h", "X.pdf", 0, "cap"⟩] [] "n1" "X.pdf"
    ⟨some "uB", "c2"⟩ "uB" (by decide) (by decide)

/-- C2 counterexample.  With the store unavailable (and likewise with
queries raising), the dedup filter keeps the recipient and the dispatch
step issues a channel send for the pair — refuting the claim that no
notification is sent for that pair in that sweep. -/
theorem C2_counterexample :
    (dispatchLoop "500325" "H" "x.pdf" 0 "n1" "cap" (fun _ => "cap") (fun _ _ => .ok true)
        (usersWhoNeedNotification .unavailable "n1" "x.pdf" [⟨some "u1", "c1"⟩])).1 =
      [.save ⟨"u1", "n1", "500325", "H", "x.pdf", 0, "cap"⟩, .send "c1" "cap"] ∧
    (dispatchLoop "500325" "H" "x.pdf" 0 "n1" "cap" (fun _ => "cap") (fun _ _ => .ok true)
        (usersWhoNeedNotification .failing "n1" "x.pdf" [⟨some "u1", "c1"⟩])).1 =
      [.save ⟨"u1", "n1", "500325", "H", "x.pdf", 0, "cap"⟩, .send "c1" "cap"] := by
  constructor <;> rfl

/-- C2 (amended).  When the persistent store is unavailable or its
queries raise, both dedup existence checks return `False` — the pair is
treated as "not seen" — so the recipient is kept in the to-notify set
and the send is attempted: the dedup check fails open toward sending,
not closed toward suppressing.  (Writes do degrade to no-ops.) -/
theorem C2_store_failure_fails_open (st : StoreState) (news pdf uid chat : String)
    (hst : st = .unavailable ∨ st = .failing) (hne : uid ≠ "") :
    db_check_if_announcement_seen_by_user st news uid = false ∧
    db_check_if_pdf_seen_by_user st pdf uid = false ∧
    recipientNeeds st news pdf ⟨some uid, chat⟩ = true ∧
    (∀ rec : SeenRecord, applySaveEvent st (.save rec) = st) := by
  have htr : pyTruthy (some uid) = true := by simp [pyTruthy, hne]
  rcases hst with rfl | rfl <;>
    simp [db_check_if_announcement_seen_by_user, db_check_if_pdf_seen_by_user,
      recipientNeeds, htr, applySaveEvent]

/-- Closed witness for `C2_store_failure_fails_open`. -/
theorem C2_witness :
    recipientNeeds .unavailable "n1" "x.pdf" ⟨some "u1", "c1"⟩ = true :=
  (C2_store_failure_fails_open .unavailable "n1" "x.pdf" "u1" "c1"
    (Or.inl rfl) (by decide)).2.2.1

/-- C6.  With the loop guards passed (truthy ids, a parseable date, a
non-empty to-notify set), an announcement whose normalized timestamp
equals the cutoff is retained and dispatched, while any strictly earlier
timestamp — down to one microsecond before — is skipped. -/
theorem C6_cutoff_boundary {A : Type} (env : Env A) (st : StoreState) (cutoff : Int)
    (scrip : String) (recipients : List Recipient) (ann : Announcement) (t : Int)
    (h1 : pyTruthy ann.newsid = true) (h2 : pyTruthy ann.attachmentname = true)
    (h3 : pyTruthy (pyOr ann.news_dt ann.dissem_dt) = true)
    (h4 : (usersWhoNeedNotification st (pyStrVal ann.newsid) (pyStrVal ann.attachmentname)
      recipients).isEmpty = false)
    (h5 : env.parseDate (pyStrVal (pyOr ann.news_dt ann.dissem_dt)) = some t) :
    (t = cutoff →
      ∃ cap evs err, processAnnouncement env st cutoff scrip recipients ann =
        .dispatched cap evs err) ∧
    (t < cutoff →
      processAnnouncement env st cutoff scrip recipients ann = .skippedBeforeCutoff) := by
  constructor
  · intro hteq
    have hnl : ¬ t < cutoff := by omega
    simp only [processAnnouncement, h1, h2, h3, h4, h5, Bool.and_self, Bool.not_true,
      Bool.false_eq_true, if_false, if_neg hnl]
    exact ⟨_, _, _, rfl⟩
  · intro hlt
    simp only [processAnnouncement, h1, h2, h3, h4, h5, Bool.and_self, Bool.not_true,
      Bool.false_eq_true, if_false, if_pos hlt]

/-- Closed witness for `C6_cutoff_boundary`: a concrete announcement at
the cutoff is dispatched; the same announcement one microsecond earlier
is skipped. -/
theorem C6_witness :
    (∃ cap evs err,
      processAnnouncement
        { parseDate := fun s => if s = "D" then some 5 else none,
          formatDate := fun _ => "01/01/25", download := fun _ => none,
          analyze := fun _ => (none : Option Unit), fmt := fun _ => "", memOk := true,
          send := fun _ _ => .ok true, base := "", tokenFor := fun _ => "tok" }
        .unavailable 5 "500325" [⟨some "u1", "c1"⟩]
        ⟨some "n1", some "x.pdf", some "D", none, some "H", none⟩ =
        .dispatched cap evs err) ∧
    processAnnouncement
      { parseDate := fun s => if s = "D" then some 6 else none,
        formatDate := fun _ => "01/01/25", download := fun _ => none,
        analyze := fun _ => (none : Option Unit), fmt := fun _ => "", memOk := true,
        send := fun _ _ => .ok true, base := "", tokenFor := fun _ => "tok" }
      .unavailable 6 "500325" [⟨some "u1", "c1"⟩]
      ⟨some "n1", some "x.pdf", some "D", none, some "H", none⟩ ≠ .skippedBeforeCutoff ∧
    processAnnouncement
      { parseDate := fun s => if s = "D" then some 5 else none,
        formatDate := fun _ => "01/01/25", download := fun _ => none,
        analyze := fun _ => (none : Option Unit), fmt := fun _ => "", memOk := true,
        send := fun _ _ => .ok true, base := "", tokenFor := fun _ => "tok" }
      .unavailable 6 "500325" [⟨some "u1", "c1"⟩]
      ⟨some "n1", some "x.pdf", some "D", none, some "H", none⟩ = .skippedBeforeCutoff := by
  refine ⟨?_, ?_, ?_⟩
  · exact (C6_cutoff_boundary _ .unavailable 5 "500325" [⟨some "u1", "c1"⟩]
      ⟨some "n1", some "x.pdf", some "D", none, some "H", none⟩ 5
      (by decide) (by decide) (by decide) (by decide) (by decide)).1 rfl
  · decide
  · exact (C6_cutoff_boundary _ .unavailable 6 "500325" [⟨some "u1", "c1"⟩]
      ⟨some "n1", some "x.pdf", some "D", none, some "H", none⟩ 5
      (by decide) (by decide) (by decide) (by decide) (by decide)).2 (by decide)

/-- Helper for C4: over any recipient list whose user ids are all
truthy, every send event in the dispatch trace is immediately preceded
by the seen-record write of a matching recipient. -/
theorem dispatchLoop_save_before_send (scrip headline pdf : String) (ann_date : Int)
    (news cap : String) (ucap : Recipient → String)
    (send : Recipient → String → Except String Bool) :
    ∀ rs : List Recipient, (∀ r ∈ rs, pyTruthy r.user_id = true) →
      ∀ pre suf c bc,
        (dispatchLoop scrip headline pdf ann_date news cap ucap send rs).1 =
          pre ++ .send c bc :: suf →
        ∃ sr : SeenRecord, Event.save sr ∈ pre ∧ sr.news_id = news ∧ sr.caption = cap ∧
          ∃ r ∈ rs, r.chat_id = c ∧ r.user_id = some sr.user_id := by
  intro rs
  induction rs with
  | nil =>
    intro _ pre suf c bc h
    simp [dispatchLoop] at h
  | cons r rs ih =>
    intro htruthy pre suf c bc h
    have htr : pyTruthy r.user_id = true := htruthy r (List.mem_cons_self r rs)
    have huid := pyTruthy_eq_true htr
    set sr0 : SeenRecord := ⟨pyStrVal r.user_id, news, scrip, headline, pdf, ann_date, cap⟩
      with hsr0
    cases hsend : send r (ucap r) with
    | error e =>
      rw [dispatchLoop] at h
      simp only [htr, if_true, hsend] at h
      have h2 : [Event.save sr0, Event.send r.chat_id (ucap r)] = pre ++ .send c bc :: suf := by
        simpa [hsr0] using h
      cases pre with
      | nil =>
        rw [List.nil_append] at h2
        injection h2 with h5 _
        exact Event.noConfusion h5
      | cons x pre1 =>
        rw [List.cons_append] at h2
        injection h2 with hx h3
        cases pre1 with
        | nil =>
          rw [List.nil_append] at h3
          injection h3 with hs _
          injection hs with hc hbc
          exact ⟨sr0, by simp [← hx], rfl, rfl, r, List.mem_cons_self r rs, hc, huid.1⟩
        | cons y pre2 =>
          rw [List.cons_append] at h3
          injection h3 with hy h4
          exact absurd h4.symm (by simp)
    | ok b =>
      rw [dispatchLoop] at h
      simp only [htr, if_true, hsend] at h
      have h2 : Event.save sr0 :: Event.send r.chat_id (ucap r) ::
          (dispatchLoop scrip headline pdf ann_date news cap ucap send rs).1 =
          pre ++ .send c bc :: suf := by
        simpa [hsr0] using h
      cases pre with
      | nil =>
        rw [List.nil_append] at h2
        injection h2 with h5 _
        exact Event.noConfusion h5
      | cons x pre1 =>
        rw [List.cons_append] at h2
        injection h2 with hx h3
        cases pre1 with
        | nil =>
          rw [List.nil_append] at h3
          injection h3 with hs _
          injection hs with hc hbc
          exact ⟨sr0, by simp [← hx], rfl, rfl, r, List.mem_cons_self r rs, hc, huid.1⟩
        | cons y pre2 =>
          rw [List.cons_append] at h3
          injection h3 with hy h4
          obtain ⟨sr, hmem, hn, hcap, r2, hr2, hchat, hru⟩ :=
            ih (fun q hq => htruthy q (List.mem_cons_of_mem r hq)) pre2 suf c bc h4
          exact ⟨sr, by simp [hmem], hn, hcap,
            r2, List.mem_cons_of_mem r hr2, hchat, hru⟩

/-- C4.  During dispatch of an announcement to the to-notify set, every
send attempted for a recipient is immediately preceded in the issued-call
trace by the seen-record write for that recipient's user, carrying the
announcement id and the rendered caption: no execution of the dispatch
step performs a send whose seen-record write has not already been
issued. -/
theorem C4_save_before_send (st : StoreState) (scrip headline pdf : String)
    (ann_date : Int) (news cap : String) (ucap : Recipient → String)
    (send : Recipient → String → Except String Bool) (recipients : List Recipient)
    (pre suf : List Event) (c bc : String)
    (h : (dispatchLoop scrip headline pdf ann_date news cap ucap send
        (usersWhoNeedNotification st news pdf recipients)).1 = pre ++ .send c bc :: suf) :
    ∃ sr : SeenRecord, Event.save sr ∈ pre ∧ sr.news_id = news ∧ sr.caption = cap ∧
      ∃ r ∈ usersWhoNeedNotification st news pdf recipients,
        r.chat_id = c ∧ r.user_id = some sr.user_id := by
  apply dispatchLoop_save_before_send scrip headline pdf ann_date news cap ucap send
    (usersWhoNeedNotification st news pdf recipients) ?_ pre suf c bc h
  intro r hr
  rw [usersWhoNeedNotification, List.mem_filter] at hr
  exact recipientNeeds_truthy hr.2

/-- Closed witness for `C4_save_before_send` on a concrete dispatch. -/
theorem C4_witness :
    ∃ sr : SeenRecord,
      Event.save sr ∈ [Event.save ⟨"u1", "n1", "500325", "H", "x.pdf", 0, "cap"⟩] ∧
      sr.news_id = "n1" ∧ sr.caption = "cap" ∧
      ∃ r ∈ usersWhoNeedNotification .unavailable "n1" "x.pdf" [⟨some "u1", "c9"⟩],
        r.chat_id = "c9" ∧ r.user_id = some sr.user_id :=
  C4_save_before_send .unavailable "500325" "H" "x.pdf" 0 "n1" "cap" (fun _ => "cap")
    (fun _ _ => .ok true) [⟨some "u1", "c9"⟩]
    [Event.save ⟨"u1", "n1", "500325", "H", "x.pdf", 0, "cap"⟩] [] "c9" "cap" (by rfl)

/-- C1.  For every caption strictly longer than the limit, once the
first document send succeeds, `send_document_handling_overflow` reaches
`for extra in chunks[1:]` with `chunks` never assigned and raises
`NameError`: the remaining caption text is never sent and the call does
not complete with a boolean. -/
theorem C1_overflow_raises_nameerror
    (sendDoc : String → String → String → Option (List Nat) → Option String → Bool)
    (limit : Nat) (chat_id pdf_name caption : String)
    (pdf_bytes : Option (List Nat)) (view_url : Option String)
    (hlong : limit < caption.length)
    (hsent : sendDoc chat_id pdf_name (firstChunk limit caption view_url) pdf_bytes view_url
      = true) :
    send_document_handling_overflow sendDoc limit chat_id pdf_name caption pdf_bytes view_url
      = .error "NameError: name chunks is not defined" := by
  have hnle : ¬ caption.length ≤ limit := by omega
  simp only [send_document_handling_overflow, if_neg hnle, hsent, Bool.not_true,
    Bool.false_eq_true, if_false]

/-- A 5000-character caption, exceeding the 4096 channel limit. -/
def bigCaption : String := ⟨List.replicate 5000 'a'⟩

theorem bigCaption_length : bigCaption.length = 5000 := by
  show (List.replicate 5000 'a').length = 5000
  exact List.length_replicate 5000 'a'

/-- Closed witness for `C1_overflow_raises_nameerror`: evaluating the
embedded function at the failing input (limit 4096, caption of length
5000, successful document sends). -/
theorem C1_witness :
    4096 < bigCaption.length ∧
    send_document_handling_overflow (fun _ _ _ _ _ => true) 4096 "c1" "f.pdf" bigCaption
        none (some "https://app/v/tok")
      = .error "NameError: name chunks is not defined" :=
  ⟨by rw [bigCaption_length]; omega,
    C1_overflow_raises_nameerror (fun _ _ _ _ _ => true) 4096 "c1" "f.pdf" bigCaption
      none (some "https://app/v/tok") (by rw [bigCaption_length]; omega) rfl⟩

/-- C7.  Deep-link token round trip, over any body codec satisfying the
properties of base64url/JSON (the encoded body decodes back and contains
no dot): a signed token verifies to the original payload fields (plus
the expiry entry) at any time up to `ttl` seconds after signing; it
verifies to invalid once more than `ttl` seconds have elapsed; and
altering any single character of the signature segment makes
verification return invalid. -/
theorem C7_token_roundtrip (enc : TokenBody → String) (dec : String → Option TokenBody)
    (mac : String → String) (payload : List (String × String)) (ttl t0 t : Nat)
    (hdec : dec (enc ⟨payload, some (t0 + ttl)⟩) = some ⟨payload, some (t0 + ttl)⟩)
    (hdot : '.' ∉ (enc ⟨payload, some (t0 + ttl)⟩).data) :
    (t ≤ t0 + ttl →
      verify_token mac dec t (sign_token enc mac payload ttl t0) =
        some ⟨payload, some (t0 + ttl)⟩) ∧
    (t0 + ttl < t →
      verify_token mac dec t (sign_token enc mac payload ttl t0) = none) ∧
    (∀ i cch (hi : i < (mac (enc ⟨payload, some (t0 + ttl)⟩)).data.length),
      (mac (enc ⟨payload, some (t0 + ttl)⟩)).data.get ⟨i, hi⟩ ≠ cch →
      verify_token mac dec t
          (enc ⟨payload, some (t0 + ttl)⟩ ++ "." ++
            alterChar (mac (enc ⟨payload, some (t0 + ttl)⟩)) i cch) = none) := by
  have hsplit := splitFirstDot_append (enc ⟨payload, some (t0 + ttl)⟩)
    (mac (enc ⟨payload, some (t0 + ttl)⟩)) hdot
  refine ⟨?_, ?_, ?_⟩
  · intro hle
    have hexp : ¬ (t0 + ttl < t) := by omega
    simp [verify_token, verify_token_checked, sign_token, hsplit, hdec, hexp]
  · intro hgt
    simp [verify_token, verify_token_checked, sign_token, hsplit, hdec, hgt]
  · intro i cch hi hne
    have hsplit2 := splitFirstDot_append (enc ⟨payload, some (t0 + ttl)⟩)
      (alterChar (mac (enc ⟨payload, some (t0 + ttl)⟩)) i cch) hdot
    have hmac : ¬ (mac (enc ⟨payload, some (t0 + ttl)⟩) =
        alterChar (mac (enc ⟨payload, some (t0 + ttl)⟩)) i cch) :=
      fun h => alterChar_ne _ i cch hi hne h.symm
    simp only [verify_token, verify_token_checked, hsplit2, if_neg hmac]

/-- Closed witness for `C7_token_roundtrip` with a concrete payload,
codec and MAC: round trip within the TTL and rejection of a tampered
signature. -/
theorem C7_witness :
    verify_token (fun s => s ++ "m")
        (fun s => if s = "E" then some ⟨[("user_id", "u1"), ("news_id", "n1")], some 3600⟩
          else none) 10
        (sign_token (fun _ => "E") (fun s => s ++ "m") [("user_id", "u1"), ("news_id", "n1")]
          3600 0) =
      some ⟨[("user_id", "u1"), ("news_id", "n1")], some 3600⟩ ∧
    verify_token (fun s => s ++ "m")
        (fun s => if s = "E" then some ⟨[("user_id", "u1"), ("news_id", "n1")], some 3600⟩
          else none) 10
        ("E" ++ "." ++ alterChar "Em" 0 'X') = none := by
  constructor
  · exact (C7_token_roundtrip (fun _ => "E")
      (fun s => if s = "E" then some ⟨[("user_id", "u1"), ("news_id", "n1")], some 3600⟩
        else none)
      (fun s => s ++ "m") [("user_id", "u1"), ("news_id", "n1")] 3600 0 10
      (by decide) (by decide)).1 (by decide)
  · exact (C7_token_roundtrip (fun _ => "E")
      (fun s => if s = "E" then some ⟨[("user_id", "u1"), ("news_id", "n1")], some 3600⟩
        else none)
      (fun s => s ++ "m") [("user_id", "u1"), ("news_id", "n1")] 3600 0 10
      (by decide) (by decide)).2.2 0 'X' (by decide) (by decide)

/-- C10.  `verify_token` is total on strings: for every input it
returns a decoded body or `None`, never propagating an exception — a
token with no dot, a signature mismatch, an undecodable body (bad
base64url or bad JSON), and a decodable body (with or without an `exp`
entry, defaulted to 0) are all handled. -/
theorem C10_verify_token_total (mac : String → String) (dec : String → Option TokenBody)
    (now : Nat) (token : String) :
    (splitFirstDot token = none → verify_token mac dec now token = none) ∧
    (∀ e s, splitFirstDot token = some (e, s) → mac e ≠ s →
      verify_token mac dec now token = none) ∧
    (∀ e s, splitFirstDot token = some (e, s) → mac e = s → dec e = none →
      verify_token mac dec now token = none) ∧
    (∀ e s b, splitFirstDot token = some (e, s) → mac e = s → dec e = some b →
      verify_token mac dec now token =
        if b.exp.getD 0 < now then none else some b) := by
  refine ⟨?_, ?_, ?_, ?_⟩
  · intro hs
    simp only [verify_token, verify_token_checked, hs]
  · intro e s hs hne
    simp only [verify_token, verify_token_checked, hs, if_neg hne]
  · intro e s hs heq hdec
    simp only [verify_token, verify_token_checked, hs, if_pos heq, hdec]
  · intro e s b hs heq hdec
    simp only [verify_token, verify_token_checked, hs, if_pos heq, hdec]
    by_cases hc : b.exp.getD 0 < now <;> simp [hc]

/-- Closed witness for `C10_verify_token_total`: a dotless token
verifies to `None`. -/
theorem C10_witness :
    verify_token (fun s => s) (fun _ => none) 0 "notatoken" = none :=
  (C10_verify_token_total (fun s => s) (fun _ => none) 0 "notatoken").1 (by decide)

/-! ### C8 helper lemmas -/

theorem pyTake_of_le (n : Nat) (s : String) (h : s.length ≤ n) : pyTake n s = s := by
  unfold pyTake
  rw [List.take_of_length_le h]

theorem fbHead_data_ne : fbHead.data ≠ [] := by decide

/-- The two fallback templates share one shape; its caption is
non-empty, contains the scrip code, and contains the first 100
characters of the headline. -/
theorem fallback_shape_props (scrip headline dateStr tail : String) :
    (fbHead ++ scrip ++ fbMid1 ++ truncHeadline headline ++ fbMid2 ++ dateStr ++ tail) ≠ "" ∧
    containsStr (fbHead ++ scrip ++ fbMid1 ++ truncHeadline headline ++ fbMid2 ++ dateStr ++ tail)
      scrip ∧
    containsStr (fbHead ++ scrip ++ fbMid1 ++ truncHeadline headline ++ fbMid2 ++ dateStr ++ tail)
      (pyTake 100 headline) := by
  refine ⟨?_, ?_, ?_⟩
  · intro he
    have hd : (fbHead ++ scrip ++ fbMid1 ++ truncHeadline headline ++ fbMid2 ++ dateStr ++
        tail).data = [] := by rw [he]
    simp only [String.data_append, List.append_eq_nil] at hd
    exact fbHead_data_ne hd.1.1.1.1.1.1
  · exact ⟨fbHead.data,
      (fbMid1 ++ truncHeadline headline ++ fbMid2 ++ dateStr ++ tail).data,
      by simp [String.data_append]⟩
  · exact ⟨(fbHead ++ scrip ++ fbMid1).data,
      ((if 100 < headline.length then "..." else "") ++ fbMid2 ++ dateStr ++ tail).data,
      by simp [String.data_append, truncHeadline, pyTake]⟩

theorem dispatchLoop_err_none (scrip headline pdf : String) (ann_date : Int)
    (news cap : String) (ucap : Recipient → String)
    (send : Recipient → String → Except String Bool)
    (hsend : ∀ r cp, ∃ b, send r cp = .ok b) :
    ∀ rs : List Recipient,
      (dispatchLoop scrip headline pdf ann_date news cap ucap send rs).2 = none := by
  intro rs
  induction rs with
  | nil => rfl
  | cons r rs ih =>
    obtain ⟨b, hb⟩ := hsend r (ucap r)
    rw [dispatchLoop]
    simp only [hb]
    exact ih

theorem processAnnouncement_err_none {A : Type} (env : Env A) (st : StoreState)
    (cutoff : Int) (scrip : String) (recipients : List Recipient) (ann : Announcement)
    (hsend : ∀ r cp, ∃ b, env.send r cp = .ok b) (cap : String) (evs : List Event)
    (e : String) :
    processAnnouncement env st cutoff scrip recipients ann ≠ .dispatched cap evs (some e) := by
  intro h
  by_cases h1 : (!(pyTruthy ann.newsid && pyTruthy ann.attachmentname)) = true
  · simp only [processAnnouncement, if_pos h1] at h
    exact AnnOutcome.noConfusion h
  by_cases h2 : (!pyTruthy (pyOr ann.news_dt ann.dissem_dt)) = true
  · simp only [processAnnouncement, if_neg h1, if_pos h2] at h
    exact AnnOutcome.noConfusion h
  by_cases h3 : (usersWhoNeedNotification st (pyStrVal ann.newsid)
      (pyStrVal ann.attachmentname) recipients).isEmpty = true
  · simp only [processAnnouncement, if_neg h1, if_neg h2, if_pos h3] at h
    exact AnnOutcome.noConfusion h
  cases hp : env.parseDate (pyStrVal (pyOr ann.news_dt ann.dissem_dt)) with
  | none =>
    simp only [processAnnouncement, if_neg h1, if_neg h2, if_neg h3, hp] at h
    exact AnnOutcome.noConfusion h
  | some t =>
    by_cases h4 : t < cutoff
    · simp only [processAnnouncement, if_neg h1, if_neg h2, if_neg h3, hp, if_pos h4] at h
      exact AnnOutcome.noConfusion h
    · simp only [processAnnouncement, if_neg h1, if_neg h2, if_neg h3, hp, if_neg h4] at h
      have herr := (AnnOutcome.dispatched.inj h).2.2
      rw [annDispatch, dispatchLoop_err_none _ _ _ _ _ _ _ _ hsend] at herr
      exact Option.noConfusion herr

theorem processAnnList_length {A : Type} (env : Env A) (cutoff : Int) (scrip : String)
    (recipients : List Recipient) (hsend : ∀ r cp, ∃ b, env.send r cp = .ok b) :
    ∀ (anns : List Announcement) (st : StoreState),
      (processAnnList env st cutoff scrip recipients anns).length = anns.length := by
  intro anns
  induction anns with
  | nil => intro st; rfl
  | cons a rest ih =>
    intro st
    rw [processAnnList]
    cases ho : processAnnouncement env st cutoff scrip recipients a with
    | dispatched cap evs err =>
      cases err with
      | some e => exact absurd ho (processAnnouncement_err_none env st cutoff scrip
          recipients a hsend cap evs e)
      | none => simpa using ih (storeAfterEvents st evs)
    | skippedNoIdOrPdf => simpa using ih st
    | skippedNoDate => simpa using ih st
    | skippedAllSeen => simpa using ih st
    | skippedUnparsable => simpa using ih st
    | skippedBeforeCutoff => simpa using ih st

set_option maxRecDepth 100000

/-- C8 counterexample.  With a 101-character headline, the degraded-path
caption contains only the truncated headline — the full headline is not
a substring — refuting the claim that the final caption contains the
headline. -/
theorem C8_counterexample :
    ¬ containsStr
      (buildFinalCaption (A := Unit) (fun _ => none) (fun _ => "") true none "500325"
        ⟨'Z' :: List.replicate 100 'y'⟩ "01/01/25 10:00 AM")
      ⟨'Z' :: List.replicate 100 'y'⟩ := by
  rw [containsStr_iff]
  decide

/-- C8 (amended).  Whenever the AI summarizer fails or is skipped
(attachment download failed, memory gate denied, or the analysis
returned null), the final caption is a non-empty fallback template
containing the scrip code and the headline truncated to its first 100
characters (the full headline whenever it has at most 100 characters);
and processing does not abort: with non-raising sends every announcement
of a scrip yields an outcome, a failed scrip yields no outcomes but is
caught, and every scrip of a sweep is processed. -/
theorem C8_graceful_degradation {A : Type} (analyze : List Nat → Option A)
    (fmt : A → String) (memOk : Bool) (pdfBytes : Option (List Nat))
    (scrip headline dateStr : String)
    (hdeg : pyBytesTruthy pdfBytes = false ∨ memOk = false ∨
      analyze (pdfBytes.getD []) = none) :
    (buildFinalCaption analyze fmt memOk pdfBytes scrip headline dateStr ≠ "" ∧
      containsStr (buildFinalCaption analyze fmt memOk pdfBytes scrip headline dateStr)
        scrip ∧
      containsStr (buildFinalCaption analyze fmt memOk pdfBytes scrip headline dateStr)
        (pyTake 100 headline) ∧
      (headline.length ≤ 100 →
        containsStr (buildFinalCaption analyze fmt memOk pdfBytes scrip headline dateStr)
          headline)) ∧
    (∀ (env : Env A) (cutoff : Int) (scrip2 : String) (recips : List Recipient)
      (anns : List Announcement) (st : StoreState),
      (∀ r cp, ∃ b, env.send r cp = .ok b) →
      (processAnnList env st cutoff scrip2 recips anns).length = anns.length) ∧
    (∀ (env : Env A) (st : StoreState) (cutoff : Int) (scrip2 : String)
      (recips : List Recipient) (e : String),
      processScrip env st cutoff scrip2 recips (.error e) = []) ∧
    (∀ (env : Env A) (st : StoreState) (cutoff : Int)
      (jobs : List (String × List Recipient × Except String (List Announcement))),
      (sweepScrips env st cutoff jobs).length = jobs.length) := by
  refine ⟨?_, ?_, ?_, ?_⟩
  · have hcap : buildFinalCaption analyze fmt memOk pdfBytes scrip headline dateStr =
        fallbackCaptionA scrip headline dateStr ∨
        buildFinalCaption analyze fmt memOk pdfBytes scrip headline dateStr =
        fallbackCaptionB scrip headline dateStr := by
      rcases hdeg with h | h | h
      · right; simp [buildFinalCaption, h]
      · right; simp [buildFinalCaption, h]
      · by_cases hb : (pyBytesTruthy pdfBytes && memOk) = true
        · left; simp [buildFinalCaption, hb, h]
        · right; simp [buildFinalCaption, hb]
    have hA := fallback_shape_props scrip headline dateStr fbTailA
    have hB := fallback_shape_props scrip headline dateStr fbTailB
    rcases hcap with hc | hc <;> rw [hc]
    · refine ⟨hA.1, hA.2.1, hA.2.2, fun hle => ?_⟩
      have h2 := hA.2.2
      rw [pyTake_of_le 100 headline hle] at h2
      exact h2
    · refine ⟨hB.1, hB.2.1, hB.2.2, fun hle => ?_⟩
      have h2 := hB.2.2
      rw [pyTake_of_le 100 headline hle] at h2
      exact h2
  · intro env cutoff scrip2 recips anns st hsend
    exact processAnnList_length env cutoff scrip2 recips hsend anns st
  · intro env st cutoff scrip2 recips e
    rfl
  · intro env st cutoff jobs
    exact List.length_map jobs _

/-- Closed witness for `C8_graceful_degradation`: a failed PDF download
with a short headline still yields a caption containing scrip and
headline. -/
theorem C8_witness :
    buildFinalCaption (A := Unit) (fun _ => none) (fun _ => "") true none "500325" "Results"
        "01/01/25" ≠ "" ∧
    containsStr (buildFinalCaption (A := Unit) (fun _ => none) (fun _ => "") true none
      "500325" "Results" "01/01/25") "500325" ∧
    containsStr (buildFinalCaption (A := Unit) (fun _ => none) (fun _ => "") true none
      "500325" "Results" "01/01/25") "Results" := by
  have h := C8_graceful_degradation (A := Unit) (fun _ => none) (fun _ => "") true none
    "500325" "Results" "01/01/25" (Or.inl (by decide))
  exact ⟨h.1.1, h.1.2.1, h.1.2.2.2 (by decide)⟩

/-! ### C9 helper lemmas: which fields each merge step can touch -/

theorem mergePrice_price_change (j : AIJson) (y : YahooData) :
    (mergePrice j y).price_change = j.price_change := by
  unfold mergePrice
  split
  · split
    · split <;> rfl
    · rfl
  · rfl

theorem mergePrice_market_cap (j : AIJson) (y : YahooData) :
    (mergePrice j y).market_cap = j.market_cap := by
  unfold mergePrice
  split
  · split
    · split <;> rfl
    · rfl
  · rfl

theorem mergePrice_company_name (j : AIJson) (y : YahooData) :
    (mergePrice j y).company_name = j.company_name := by
  unfold mergePrice
  split
  · split
    · split <;> rfl
    · rfl
  · rfl

theorem mergeChange_current_stock_price (j : AIJson) (y : YahooData) :
    (mergeChange j y).current_stock_price = j.current_stock_price := by
  unfold mergeChange
  split
  · split
    · split
      · rfl
      · split
        · split <;> rfl
        · rfl
    · split
      · split <;> rfl
      · rfl
  · rfl

theorem mergeChange_market_cap (j : AIJson) (y : YahooData) :
    (mergeChange j y).market_cap = j.market_cap := by
  unfold mergeChange
  split
  · split
    · split
      · rfl
      · split
        · split <;> rfl
        · rfl
    · split
      · split <;> rfl
      · rfl
  · rfl

theorem mergeChange_company_name (j : AIJson) (y : YahooData) :
    (mergeChange j y).company_name = j.company_name := by
  unfold mergeChange
  split
  · split
    · split
      · rfl
      · split
        · split <;> rfl
        · rfl
    · split
      · split <;> rfl
      · rfl
  · rfl

theorem mergeMcap_current_stock_price (j : AIJson) (y : YahooData) :
    (mergeMcap j y).current_stock_price = j.current_stock_price := by
  unfold mergeMcap
  split <;> rfl

theorem mergeMcap_price_change (j : AIJson) (y : YahooData) :
    (mergeMcap j y).price_change = j.price_change := by
  unfold mergeMcap
  split <;> rfl

theorem mergeMcap_company_name (j : AIJson) (y : YahooData) :
    (mergeMcap j y).company_name = j.company_name := by
  unfold mergeMcap
  split <;> rfl

theorem mergeCname_current_stock_price (j : AIJson) (y : YahooData) :
    (mergeCname j y).current_stock_price = j.current_stock_price := by
  unfold mergeCname
  split <;> rfl

theorem mergeCname_price_change (j : AIJson) (y : YahooData) :
    (mergeCname j y).price_change = j.price_change := by
  unfold mergeCname
  split <;> rfl

theorem mergeCname_market_cap (j : AIJson) (y : YahooData) :
    (mergeCname j y).market_cap = j.market_cap := by
  unfold mergeCname
  split <;> rfl

theorem mergeYahoo_eq (j : AIJson) (y : YahooData) (herr : y.error = false) :
    mergeYahooIntoJson j (some y) =
      mergeCname (mergeMcap (mergeChange (mergePrice j y) y) y) y := by
  simp [mergeYahooIntoJson, herr]

/-- C9 counterexample.  Two concrete merges refute the claim: an AI
`price_change` of `"N/A"` is not filled from a supplied quote change
(the code tests only for the empty string there), and a whitespace-only
AI `current_stock_price` — non-empty and not `"N/A"` — is overridden by
the quote price (the code strips before testing). -/
theorem C9_counterexample :
    (mergeYahooIntoJson ⟨none, some "N/A", none, none⟩
        (some ⟨false, none, some "1.5", true, some "0.2", none, none⟩)).price_change =
      some "N/A" ∧
    (mergeYahooIntoJson ⟨some " ", none, none, none⟩
        (some ⟨false, some "99", none, true, none, none, none⟩)).current_stock_price =
      some "99" := by
  constructor <;> rfl

/-- C9 (amended).  With live quote data available (truthy, no error),
the merge block behaves per field: `current_stock_price` is kept
whenever its stripped AI value is neither empty nor `"N/A"`, and filled
from the quote price when it is; `price_change` is kept whenever its
stripped AI value is non-empty (including `"N/A"`), and filled from the
quote change only when it is empty; `market_cap` and `company_name` are
kept whenever truthy (including `"N/A"`), and filled from the quote only
when falsy. -/
theorem C9_quote_merge (j : AIJson) (y : YahooData) (herr : y.error = false) :
    ((aiFieldStr j.current_stock_price ≠ "" ∧ aiFieldStr j.current_stock_price ≠ "N/A") →
      (mergeYahooIntoJson j (some y)).current_stock_price = j.current_stock_price) ∧
    (aiFieldStr j.price_change ≠ "" →
      (mergeYahooIntoJson j (some y)).price_change = j.price_change) ∧
    (pyTruthy j.market_cap = true →
      (mergeYahooIntoJson j (some y)).market_cap = j.market_cap) ∧
    (pyTruthy j.company_name = true →
      (mergeYahooIntoJson j (some y)).company_name = j.company_name) ∧
    ((aiFieldStr j.current_stock_price = "" ∨ aiFieldStr j.current_stock_price = "N/A") →
      ∀ lp, y.current_price = some lp → lp ≠ "N/A" →
        (mergeYahooIntoJson j (some y)).current_stock_price = some lp) ∧
    (aiFieldStr j.price_change = "" →
      ∀ pct, y.day_change_percent = some pct → pct ≠ "N/A" →
        (mergeYahooIntoJson j (some y)).price_change =
          some (if y.pct_is_num then pct ++ "%" else pct)) ∧
    ((pyTruthy j.market_cap = false ∧ pyTruthy y.market_cap = true) →
      (mergeYahooIntoJson j (some y)).market_cap = y.market_cap) ∧
    ((pyTruthy j.company_name = false ∧ pyTruthy y.company_name = true) →
      (mergeYahooIntoJson j (some y)).company_name = y.company_name) := by
  refine ⟨?_, ?_, ?_, ?_, ?_, ?_, ?_, ?_⟩
  · rintro ⟨hne, hna⟩
    rw [mergeYahoo_eq j y herr, mergeCname_current_stock_price, mergeMcap_current_stock_price,
      mergeChange_current_stock_price]
    unfold mergePrice
    rw [if_neg (by simp [hne, hna])]
  · intro hne
    rw [mergeYahoo_eq j y herr, mergeCname_price_change, mergeMcap_price_change]
    unfold mergeChange
    rw [mergePrice_price_change, if_neg hne]
    exact mergePrice_price_change j y
  · intro htr
    rw [mergeYahoo_eq j y herr, mergeCname_market_cap]
    have hx : (mergeChange (mergePrice j y) y).market_cap = j.market_cap := by
      rw [mergeChange_market_cap, mergePrice_market_cap]
    unfold mergeMcap
    rw [hx, if_neg (by simp [htr])]
    exact hx
  · intro htr
    rw [mergeYahoo_eq j y herr]
    have hx : (mergeMcap (mergeChange (mergePrice j y) y) y).company_name = j.company_name := by
      rw [mergeMcap_company_name, mergeChange_company_name, mergePrice_company_name]
    unfold mergeCname
    rw [hx, if_neg (by simp [htr])]
    exact hx
  · intro hblank lp hlp hna
    rw [mergeYahoo_eq j y herr, mergeCname_current_stock_price, mergeMcap_current_stock_price,
      mergeChange_current_stock_price]
    unfold mergePrice
    rw [if_pos (by rcases hblank with h | h <;> simp [h])]
    simp only [hlp]
    rw [if_pos hna]
  · intro hblank pct hpct hna
    rw [mergeYahoo_eq j y herr, mergeCname_price_change, mergeMcap_price_change]
    unfold mergeChange
    rw [mergePrice_price_change, if_pos hblank]
    simp only [hpct]
    rw [if_pos hna]
  · rintro ⟨hfal, htr⟩
    rw [mergeYahoo_eq j y herr, mergeCname_market_cap]
    have hx : (mergeChange (mergePrice j y) y).market_cap = j.market_cap := by
      rw [mergeChange_market_cap, mergePrice_market_cap]
    unfold mergeMcap
    rw [hx, if_pos (by simp [hfal, htr])]
  · rintro ⟨hfal, htr⟩
    rw [mergeYahoo_eq j y herr]
    have hx : (mergeMcap (mergeChange (mergePrice j y) y) y).company_name = j.company_name := by
      rw [mergeMcap_company_name, mergeChange_company_name, mergePrice_company_name]
    unfold mergeCname
    rw [hx, if_pos (by simp [hfal, htr])]

/-- Closed witness for `C9_quote_merge`: a non-empty AI price is kept
and an absent AI company name is filled from the quote data. -/
theorem C9_witness :
    (mergeYahooIntoJson ⟨some "120.5", none, none, none⟩
        (some ⟨false, some "99", none, true, none, none, some "Reliance"⟩)).current_stock_price =
      some "120.5" ∧
    (mergeYahooIntoJson ⟨some "120.5", none, none, none⟩
        (some ⟨false, some "99", none, true, none, none, some "Reliance"⟩)).company_name =
      some "Reliance" := by
  constructor
  · exact (C9_quote_merge ⟨some "120.5", none, none, none⟩
      ⟨false, some "99", none, true, none, none, some "Reliance"⟩ rfl).1 (by decide)
  · exact (C9_quote_merge ⟨some "120.5", none, none, none⟩
      ⟨false, some "99", none, true, none, none, some "Reliance"⟩ rfl).2.2.2.2.2.2.2
      (by decide)

end BseButAi
